import Mathlib

/-!
Verification of the AegisChain dashboard and agent-pipeline specification.

Each component of the frontend that the specification talks about is shallowly
embedded as executable Lean definitions: JavaScript numbers are modelled as
rationals, nullable fields as `Option`, React component state as explicit state
records, and event handlers as step functions on those records.  Backend agent
code (Auditor / HITL state machine, geospatial scoring) is not part of the
source tree; those parts are modelled directly from the specification text and
are marked as such in their doc comments.
-/

namespace AegisChain

/-! ## FinancialHUD — net-savings and ROI estimation

Embeds the counterfactual savings model of the FinancialHUD component
(`estimateNetSavings` / `estimateROI`).  JavaScript floating point arithmetic
is modelled over the rationals. -/

namespace FinancialHUD

def AVOIDANCE_EFFICIENCY : ℚ := 73 / 100

def REROUTE_OVERHEAD_RATE : ℚ := 18 / 100

def AVG_DETECTION_RATE : ℚ := 76 / 100

/-- The function `estimateNetSavings(valueAtRisk, reroutesActive)` of the FinancialHUD
component: zero when either input is non-positive, otherwise detection,
avoidance, and overhead factors applied in sequence. -/
def estimateNetSavings (valueAtRisk reroutesActive : ℚ) : ℚ :=
  if valueAtRisk ≤ 0 ∨ reroutesActive ≤ 0 then 0
  else
    let detected := valueAtRisk * AVG_DETECTION_RATE
    let avoided := detected * AVOIDANCE_EFFICIENCY
    let overhead := avoided * REROUTE_OVERHEAD_RATE
    avoided - overhead

/-- The function `estimateROI(netSavings, valueAtRisk)` of the FinancialHUD component:
zero for non-positive value at risk, otherwise net savings divided by the
reroute overhead (guarded against a zero denominator). -/
def estimateROI (netSavings valueAtRisk : ℚ) : ℚ :=
  if valueAtRisk ≤ 0 then 0
  else
    let overhead :=
      valueAtRisk * AVG_DETECTION_RATE * AVOIDANCE_EFFICIENCY * REROUTE_OVERHEAD_RATE
    if overhead > 0 then netSavings / overhead else 0

end FinancialHUD

/-! ## TimeSlider — discrete time-stop state

Embeds the Time-Machine slider: `timeStops` is the hardcoded stop list
filtered to the `maxHours` bound, the range input selects a stop by index, and
the autoplay interval advances to the next stop.  The JavaScript
`Array.indexOf` returns `-1` on a missing element, so the advance is computed
over the integers exactly as `(indexOf(prev) + 1) % length`. -/

namespace TimeSlider

def baseStops : List ℕ := [0, 12, 24, 48, 72]

/-- The stop list `[0, 12, 24, 48, 72].filter(h => h <= maxHours)`. -/
def timeStops (maxHours : ℕ) : List ℕ :=
  baseStops.filter (fun h => h ≤ maxHours)

/-- The range input: `onChange` stores `timeStops[parseInt(e.target.value)]`
where the slider constrains the value to `[0, timeStops.length - 1]`. -/
def sliderSelect (maxHours : ℕ) (idx : Fin (timeStops maxHours).length) : ℕ :=
  (timeStops maxHours).get idx

/-- One autoplay tick: `timeStops[(timeStops.indexOf(prev) + 1) % timeStops.length]`,
with JavaScript `indexOf` yielding `-1` when `prev` is not a stop. -/
def autoplayTick (maxHours prev : ℕ) : ℕ :=
  let stops := timeStops maxHours
  let currentIndex : ℤ := if prev ∈ stops then ((stops.indexOf prev : ℕ) : ℤ) else -1
  let nextIndex := ((currentIndex + 1) % (stops.length : ℤ)).toNat
  stops.getD nextIndex 0

end TimeSlider

/-! ## Data model shared by the dashboard components (lib/api.ts) -/

/-- The `WeatherThreat` record of lib/api.ts (fields used by the pipeline claims). -/
structure WeatherThreat where
  threat_id : String
  source : String
  event_type : String
  severity : String
  centroid : Option (ℚ × ℚ)
deriving DecidableEq

structure Coordinates where
  lat : ℚ
  lon : ℚ
deriving DecidableEq

/-- The `ERPLocation` record of lib/api.ts. -/
structure ERPLocation where
  location_id : String
  name : String
  type : String
  coordinates : Coordinates
  inventory_value_usd : ℚ
  reliability_index : ℚ
  avg_lead_time_hours : ℚ
  active : Bool
deriving DecidableEq

/-- Route geometries handled by the globe: either a plain GeoJSON LineString
(with its coordinate list) or a turf great-circle arc. -/
inductive RouteGeometry
| lineString (coords : List Coordinates)
| greatCircleArc (o d : Coordinates) (npoints : ℕ)
deriving DecidableEq

/-- The `Proposal` record of lib/api.ts. -/
structure Proposal where
  proposal_id : String
  threat_id : String
  original_supplier_id : String
  proposed_supplier_id : String
  proposed_supplier_name : String
  attention_score : ℚ
  mapbox_drive_time_minutes : ℚ
  mapbox_distance_km : ℚ
  reroute_cost_usd : ℚ
  hitl_status : Option String
  route_geometry : Option RouteGeometry
deriving DecidableEq

/-- The `DashboardState` record of lib/api.ts. -/
structure DashboardState where
  active_threats : List WeatherThreat
  erp_locations : List ERPLocation
  active_routes : List Proposal
  pending_proposals : List Proposal
  total_value_at_risk : ℚ
deriving DecidableEq

/-! ## subscribePipelineProgress — WebSocket frame handling (lib/api.ts)

The `onmessage` handler parses the frame as JSON, silently drops frames that
fail to parse, drops frames whose `type` field is `"ping"`, and forwards every
other frame to the subscriber's `onEvent` callback. -/

namespace PipelineWS

/-- The `PipelineProgressEvent` record of lib/api.ts. -/
structure ProgressEvent where
  agent : String
  status : String
  threats : Option ℕ
  at_risk : Option ℕ
  bottlenecks : Option ℕ
  var_usd : Option ℚ
  correlations : Option ℕ
  proposals : Option ℕ
  approved : Option ℕ
  hitl : Option ℕ
  rejected : Option ℕ
  actions : Option ℕ
  reason : Option String
deriving DecidableEq

/-- A successfully parsed JSON frame, viewed through both accesses the handler
makes: its optional `type` field and the event payload it is cast to. -/
structure ParsedFrame where
  typeField : Option String
  payload : ProgressEvent
deriving DecidableEq

/-- The `ws.onmessage` handler of `subscribePipelineProgress`, as the list of
events it delivers to `onEvent` for one frame.  `none` stands for a frame on
which `JSON.parse` threw (the handler catches and ignores it). -/
def handleFrame (frame : Option ParsedFrame) : List ProgressEvent :=
  match frame with
  | none => []
  | some f => if f.typeField = some "ping" then [] else [f.payload]

end PipelineWS

/-! ## Dashboard page (app/page.tsx)

`loadState` fetches the dashboard snapshot: on success it replaces the cached
state, stamps the sync time and clears the error banner; on failure it only
sets the disconnected error message.  The two operation buttons are rendered
with `disabled={running !== "idle"}`, so a click reaches `handlePipeline` /
`handleIngest` only in the idle state; each handler sets `running` for the
duration of its awaited trigger request. -/

namespace DashboardPage

inductive RunStatus
| idle
| ingest
| pipeline
deriving DecidableEq

/-- The slice of the page's React state that `loadState` and the operation
handlers touch.  `pipelineInflight` counts trigger requests issued to
`POST /pipeline/run` that have not yet settled. -/
structure PageState where
  state : Option DashboardState
  error : Option String
  lastSync : Option ℕ
  running : RunStatus
  pipelineInflight : ℕ
deriving DecidableEq

def initPage : PageState :=
  { state := none, error := none, lastSync := none,
    running := .idle, pipelineInflight := 0 }

/-- Outcome of one `fetchDashboardState()` call. -/
inductive FetchResult
| ok (data : DashboardState)
| failure
deriving DecidableEq

/-- The `loadState` callback (page.tsx): `setState(data); setLastSync(new Date()); setError(null)`
on success, `setError("SYS:DISCONNECTED — backend offline")` on any failure. -/
def loadState (s : PageState) (now : ℕ) (r : FetchResult) : PageState :=
  match r with
  | .ok data => { s with state := some data, lastSync := some now, error := none }
  | .failure => { s with error := some "SYS:DISCONNECTED — backend offline" }

/-- UI events on the operations strip.  A click event exists only when the
button emits one; a settle event exists only for a request that was issued. -/
inductive UiEvent
| clickPipeline
| clickIngest
| pipelineSettled
| ingestSettled
deriving DecidableEq

/-- One step of the operations strip.  Both buttons carry
`disabled={running !== "idle"}`, so a click outside the idle state never runs
the handler (and therefore never issues a trigger request). -/
def stepUi (s : PageState) (e : UiEvent) : PageState :=
  match e with
  | .clickPipeline =>
      if s.running ≠ .idle then s
      else { s with running := .pipeline, pipelineInflight := s.pipelineInflight + 1 }
  | .clickIngest =>
      if s.running ≠ .idle then s
      else { s with running := .ingest }
  | .pipelineSettled =>
      if s.running = .pipeline then
        { s with running := .idle, pipelineInflight := s.pipelineInflight - 1 }
      else s
  | .ingestSettled =>
      if s.running = .ingest then { s with running := .idle } else s

/-- Page states reachable from the initial render through UI events. -/
inductive ReachableUi : PageState → Prop
| init : ReachableUi initPage
| step {s : PageState} (e : UiEvent) : ReachableUi s → ReachableUi (stepUi s e)

end DashboardPage

/-! ## Orchestrator single-flight guard

Modelled from the spec: the backend orchestrator is not under src/ — only its
frontend callers are.  §5 requires that "a cycle-level lock (or equivalent
single-flight guard) ensures at most one pipeline run is active at a time; a
trigger request arriving mid-run either queues, rejects, or joins the in-flight
run's result — never duplicates Watcher/Procurement/Auditor work". -/

namespace Orchestrator

/-- Modelled from the spec: the orchestrator's run state — whether a pipeline
cycle is active, and how many Watcher runs have been started. -/
structure RunState where
  runActive : Bool
  watcherRunsStarted : ℕ
deriving DecidableEq

inductive TriggerOutcome
| started
| joinedInFlight
deriving DecidableEq

/-- Modelled from the spec: a trigger request acquires the cycle-level lock
when no run is active (starting a Watcher run); otherwise it joins/reports the
in-flight cycle without starting new agent work. -/
def triggerRun (o : RunState) : RunState × TriggerOutcome :=
  if o.runActive then (o, .joinedInFlight)
  else ({ runActive := true, watcherRunsStarted := o.watcherRunsStarted + 1 }, .started)

/-- Modelled from the spec: cycle completion releases the lock. -/
def finishRun (o : RunState) : RunState :=
  { o with runActive := false }

end Orchestrator

/-! ## ChatToMap — in-flight query cancellation (components/chat/ChatToMap.tsx)

The component keeps `abortControllerRef` pointing at the controller of the
request started by `handleSend`; an effect keyed on `contextThreatId` calls
`abort()` on it (and nulls the ref) whenever the selected threat context
changes.  The request itself (`sendChatMessage` in lib/api.ts) passes the
controller's signal to `fetch`, so an aborted request rejects with an
`AbortError` instead of resolving — the catch block returns without applying
anything to the log. -/

namespace ChatToMap

/-- One chat request: the identity of its `AbortController`, the (trimmed)
question, and the `contextThreatId` captured when it was sent. -/
structure ChatRequest where
  cid : ℕ
  question : String
  context : Option String
deriving DecidableEq

/-- The component state relevant to cancellation: the `contextThreatId` prop,
the `loading` flag, `abortControllerRef`, the set of controllers whose
`abort()` has run, the request awaiting its response, the responses applied to
the log, and a counter supplying fresh controller identities. -/
structure ChatState where
  context : Option String
  loading : Bool
  abortCtrl : Option ℕ
  aborted : List ℕ
  inflight : Option ChatRequest
  applied : List ChatRequest
  nextId : ℕ
deriving DecidableEq

def initChat : ChatState :=
  { context := none, loading := false, abortCtrl := none,
    aborted := [], inflight := none, applied := [], nextId := 0 }

/-- Events acting on the component: `send q` is `handleSend` with the trimmed
input `q`; `contextChange c` is a change of the `contextThreatId` prop (the
abort effect); `respond` is the settled network call of the in-flight
request. -/
inductive ChatEvent
| send (q : String)
| contextChange (c : Option String)
| respond
deriving DecidableEq

def stepChat (s : ChatState) (e : ChatEvent) : ChatState :=
  match e with
  | .send q =>
      -- handleSend: `if (!question || loading) return;` then a fresh
      -- AbortController is created, stored in the ref, and its signal passed
      -- to the request.
      if q = "" ∨ s.loading then s
      else
        { s with loading := true, abortCtrl := some s.nextId,
                 inflight := some ⟨s.nextId, q, s.context⟩,
                 nextId := s.nextId + 1 }
  | .contextChange c =>
      -- effect on [contextThreatId]: abort the current controller, null the ref.
      match s.abortCtrl with
      | some id => { s with context := c, aborted := id :: s.aborted, abortCtrl := none }
      | none => { s with context := c }
  | .respond =>
      match s.inflight with
      | none => s
      | some r =>
          if r.cid ∈ s.aborted then
            -- fetch rejected with AbortError: the catch block returns and the
            -- response is never applied to the log.
            { s with inflight := none }
          else
            { s with inflight := none, loading := false, applied := r :: s.applied }

def runChat (s : ChatState) (es : List ChatEvent) : ChatState :=
  es.foldl stepChat s

/-- Component states reachable from the initial render. -/
inductive ReachableChat : ChatState → Prop
| init : ReachableChat initChat
| step {s : ChatState} (e : ChatEvent) : ReachableChat s → ReachableChat (stepChat s e)

end ChatToMap

/-! ## AddNodePanel — location registration (components/dashboard/AddNodePanel.tsx)

The form declares `required`, `min` and `max` attributes on its inputs
(`lat` in [-90, 90], `lon` in [-180, 180], optional non-negative inventory and
lead time).  Per HTML form semantics the submit event — and with it
`handleSubmit`, which issues the `createERPLocation` request — fires only when
every input satisfies its declared constraints; a number input whose content
does not parse holds no number (`none` below), which the `required` inputs
also reject. -/

namespace AddNodePanel

/-- The form's React state.  Number inputs are modelled by the numeric value
they hold: `none` for an empty or non-numeric field. -/
structure NodeForm where
  name : String
  type : String
  lat : Option ℚ
  lon : Option ℚ
  inv : Option ℚ
  leadTime : Option ℚ
deriving DecidableEq

/-- HTML constraint validation of the declared attributes: `name` and the two
coordinates are `required`; `lat` has `min={-90} max={90}`, `lon` has
`min={-180} max={180}`; the optional numeric fields have `min={0}`. -/
def formValid (f : NodeForm) : Bool :=
  f.name ≠ "" &&
  (match f.lat with
   | some v => decide (-90 ≤ v ∧ v ≤ 90)
   | none => false) &&
  (match f.lon with
   | some v => decide (-180 ≤ v ∧ v ≤ 180)
   | none => false) &&
  (match f.inv with
   | some v => decide (0 ≤ v)
   | none => true) &&
  (match f.leadTime with
   | some v => decide (0 ≤ v)
   | none => true)

/-- The `ERPLocationUpsert` payload built by `handleSubmit`. -/
structure UpsertPayload where
  name : String
  type : String
  lat : ℚ
  lon : ℚ
  inventory_value_usd : Option ℚ
  avg_lead_time_hours : Option ℚ
deriving DecidableEq

/-- Submitting the registration form: the browser dispatches the submit event
(running `handleSubmit`, which sends the create/update request) only when the
form passes constraint validation; otherwise no request is sent (`none`). -/
def submitRegistration (f : NodeForm) : Option UpsertPayload :=
  if formValid f then
    some { name := f.name, type := f.type,
           lat := f.lat.getD 0, lon := f.lon.getD 0,
           inventory_value_usd := f.inv,
           avg_lead_time_hours := f.leadTime }
  else none

end AddNodePanel

/-! ## AegisGlobe — route rendering (components/map/AegisGlobe.tsx)

`updateRoutes` resolves each proposal's origin and destination location,
prefers the stored `route_geometry`, falls back to a plain two-point
LineString when both endpoints share the exact coordinates (turf.greatCircle
throws "origin and destination cannot be the same" there), and otherwise draws
a great-circle arc, with a try/catch falling back to the two-point LineString. -/

namespace AegisGlobe

/-- The `turf.greatCircle` helper: throws when origin and destination are equal. -/
def greatCircle (o d : Coordinates) (npoints : ℕ) : Except String RouteGeometry :=
  if o = d then .error "origin and destination cannot be the same"
  else .ok (.greatCircleArc o d npoints)

/-- A feature pushed onto the `routes` source.  `usedGreatCircle` instruments
whether `turf.greatCircle` was invoked while building the geometry. -/
structure RouteFeature where
  proposal_id : String
  status : String
  cost : ℚ
  attention_score : ℚ
  geometry : RouteGeometry
  usedGreatCircle : Bool
deriving DecidableEq

/-- The body of the `for (const route of routes)` loop in `updateRoutes`:
`none` when either endpoint is missing (`continue`). -/
def routeFeature (locations : List ERPLocation) (route : Proposal) :
    Option RouteFeature :=
  match locations.find? (fun l => l.location_id = route.original_supplier_id),
        locations.find? (fun l => l.location_id = route.proposed_supplier_id) with
  | some origin, some dest =>
      let geom : RouteGeometry × Bool :=
        match route.route_geometry with
        | some g => (g, false)
        | none =>
            if origin.coordinates.lon = dest.coordinates.lon ∧
               origin.coordinates.lat = dest.coordinates.lat then
              (.lineString [origin.coordinates, dest.coordinates], false)
            else
              match greatCircle origin.coordinates dest.coordinates 100 with
              | .ok arc => (arc, true)
              | .error _ => (.lineString [origin.coordinates, dest.coordinates], true)
      some { proposal_id := route.proposal_id,
             -- `route.hitl_status || "pending"` — the empty string is falsy
             status := match route.hitl_status with
                       | some st => if st = "" then "pending" else st
                       | none => "pending",
             cost := route.reroute_cost_usd,
             attention_score := route.attention_score,
             geometry := geom.1,
             usedGreatCircle := geom.2 }
  | _, _ => none

/-- The `updateRoutes` function: the feature list pushed to the map source. -/
def updateRoutes (routes : List Proposal) (locations : List ERPLocation) :
    List RouteFeature :=
  routes.filterMap (routeFeature locations)

end AegisGlobe

/-! ## Geospatial scoring — value at risk

Modelled from the spec: the backend geospatial scoring utilities (§4.1) are
not under src/.  "`valueAtRisk(location)`: returns
`location.inventory_value ?? 0` — treats missing/null inventory as zero, never
as a type error; all aggregate/ranking functions over locations MUST apply the
same null-coalescing rule uniformly (this governs Auditor's highest-value
affected location selection too)." -/

namespace Scoring

/-- Modelled from the spec: the `Location` entity of §3 (the fields the scoring
utilities read), with its nullable `inventory_value`. -/
structure Location where
  id : String
  name : String
  type : String
  inventory_value : Option ℚ
  reliability_index : ℚ
  active : Bool
deriving DecidableEq

/-- Modelled from the spec: `valueAtRisk(location) = location.inventory_value ?? 0`. -/
def valueAtRisk (loc : Location) : ℚ :=
  loc.inventory_value.getD 0

/-- Modelled from the spec: one comparison step of the "highest value"
selection — a candidate replaces the current best only when its
null-coalescing `valueAtRisk` is strictly greater. -/
def considerLocation (best : Option Location) (l : Location) : Option Location :=
  match best with
  | none => some l
  | some b => if valueAtRisk l > valueAtRisk b then some l else some b

/-- Modelled from the spec: the canonical "highest value" selection over a set
of locations (the Auditor's highest-value affected-location selection),
ranking every location by the null-coalescing `valueAtRisk`.  The first
location seen wins ties. -/
def selectHighestValue (locs : List Location) : Option Location :=
  locs.foldl considerLocation none

end Scoring

/-! ## HITL state machine

Modelled from the spec: the backend Auditor agent and HITL resolution handler
(§4.4, §4.6) are not under src/.  §4.4: a `pending` proposal is evaluated by
the Auditor — confidence ≥ approval_threshold gives `auto_approved`,
confidence < rejection_threshold gives `rejected`, anything in between gives
`awaiting_approval`; re-running the Auditor on an already-evaluated proposal
is an idempotent no-op.  §4.6: HITL resolution validates that the proposal is
currently `awaiting_approval` (rejecting attempts against any other state with
a client error, not a crash) and transitions it to `approved` or `rejected`.
A proposal carries exactly one `hitl_status` — a single field of the record. -/

namespace Hitl

inductive HitlStatus
| pending
| auto_approved
| awaiting_approval
| approved
| rejected
deriving DecidableEq

/-- Terminal statuses: no operation moves a proposal out of them. -/
def isTerminal : HitlStatus → Bool
  | .auto_approved => true
  | .approved => true
  | .rejected => true
  | _ => false

/-- Modelled from the spec: the `RerouteProposal` fields the state machine
touches. -/
structure RerouteProposal where
  proposal_id : String
  hitl_status : HitlStatus
  confidence : Option ℚ
  audit_explanation : String
deriving DecidableEq

/-- Modelled from the spec (§4.4 transition rule): the Auditor evaluates a
`pending` proposal against the two thresholds and persists the verdict;
evaluating a proposal that is no longer `pending` is an idempotent skip. -/
def auditorEvaluate (approval_threshold rejection_threshold confidence : ℚ)
    (explanation : String) (p : RerouteProposal) : RerouteProposal :=
  if p.hitl_status ≠ .pending then p
  else if approval_threshold ≤ confidence then
    { p with hitl_status := .auto_approved, confidence := some confidence,
             audit_explanation := explanation }
  else if confidence < rejection_threshold then
    { p with hitl_status := .rejected, confidence := some confidence,
             audit_explanation := explanation }
  else
    { p with hitl_status := .awaiting_approval, confidence := some confidence,
             audit_explanation := explanation }

inductive Decision
| approve
| reject
deriving DecidableEq

/-- Modelled from the spec (§4.6): the HITL resolution handler — a client
error (`Except.error`) for a proposal not currently `awaiting_approval`,
otherwise the terminal transition chosen by the human decision. -/
def hitlResolve (d : Decision) (rationale : String) (p : RerouteProposal) :
    Except String RerouteProposal :=
  if p.hitl_status ≠ .awaiting_approval then
    .error "proposal is not awaiting approval"
  else
    match d with
    | .approve => .ok { p with hitl_status := .approved }
    | .reject => .ok { p with hitl_status := .rejected,
                              audit_explanation := rationale }

end Hitl

/-! ## Theorems -/

/-- C8: for positive `valueAtRisk` and `reroutesActive`, `estimateNetSavings`
equals `v × 0.76 × 0.73 × (1 − 0.18)` and feeding it back into `estimateROI`
yields the constant `(1 − 0.18) / 0.18` independently of the inputs; a
non-positive `valueAtRisk` or `reroutesActive` gives zero net savings, and a
non-positive `valueAtRisk` gives zero ROI. -/
theorem financial_hud_savings_roi (v r : ℚ) :
    (0 < v → 0 < r →
      FinancialHUD.estimateNetSavings v r
        = v * (76 / 100) * (73 / 100) * (1 - 18 / 100) ∧
      FinancialHUD.estimateROI (FinancialHUD.estimateNetSavings v r) v
        = (1 - (18 : ℚ) / 100) / (18 / 100)) ∧
    (v ≤ 0 ∨ r ≤ 0 → FinancialHUD.estimateNetSavings v r = 0) ∧
    (v ≤ 0 → ∀ ns, FinancialHUD.estimateROI ns v = 0) := by
  refine ⟨?_, ?_, ?_⟩
  · intro hv hr
    have hcond : ¬(v ≤ 0 ∨ r ≤ 0) := by push_neg; exact ⟨hv, hr⟩
    have hns : FinancialHUD.estimateNetSavings v r
        = v * (76 / 100) * (73 / 100) * (1 - 18 / 100) := by
      simp only [FinancialHUD.estimateNetSavings, FinancialHUD.AVG_DETECTION_RATE,
        FinancialHUD.AVOIDANCE_EFFICIENCY, FinancialHUD.REROUTE_OVERHEAD_RATE,
        if_neg hcond]
      ring
    refine ⟨hns, ?_⟩
    have hv' : ¬v ≤ 0 := not_le.mpr hv
    have hover : (0 : ℚ) < v * (76 / 100) * (73 / 100) * (18 / 100) := by positivity
    rw [hns]
    simp only [FinancialHUD.estimateROI, FinancialHUD.AVG_DETECTION_RATE,
      FinancialHUD.AVOIDANCE_EFFICIENCY, FinancialHUD.REROUTE_OVERHEAD_RATE,
      if_neg hv', if_pos hover]
    rw [div_eq_div_iff (by positivity) (by norm_num)]
    ring
  · intro h
    simp only [FinancialHUD.estimateNetSavings, if_pos h]
  · intro h ns
    simp only [FinancialHUD.estimateROI, if_pos h]

/-- Witness for C8 at `v = 100`, `r = 2` and at non-positive inputs. -/
theorem financial_hud_savings_roi_witness :
    FinancialHUD.estimateNetSavings 100 2
        = 100 * (76 / 100) * (73 / 100) * (1 - 18 / 100) ∧
    FinancialHUD.estimateROI (FinancialHUD.estimateNetSavings 100 2) 100
        = (1 - (18 : ℚ) / 100) / (18 / 100) ∧
    FinancialHUD.estimateNetSavings (-5) 2 = 0 ∧
    FinancialHUD.estimateROI 7 (-5) = 0 := by
  refine ⟨?_, ?_, ?_, ?_⟩
  · exact ((financial_hud_savings_roi 100 2).1 (by norm_num) (by norm_num)).1
  · exact ((financial_hud_savings_roi 100 2).1 (by norm_num) (by norm_num)).2
  · exact (financial_hud_savings_roi (-5) 2).2.1 (Or.inl (by norm_num))
  · exact (financial_hud_savings_roi (-5) 2).2.2 (by norm_num) 7

/-- C4: a failed dashboard-state fetch leaves the previously loaded state
untouched and only raises the disconnected indicator; a successful fetch
installs the new snapshot and clears the indicator, also immediately after a
failure. -/
theorem load_state_resilient (s : DashboardPage.PageState) (d : DashboardState)
    (t1 t2 : ℕ) :
    (DashboardPage.loadState s t1 .failure).state = s.state ∧
    (DashboardPage.loadState s t1 .failure).error
        = some "SYS:DISCONNECTED — backend offline" ∧
    (DashboardPage.loadState s t1 (.ok d)).state = some d ∧
    (DashboardPage.loadState s t1 (.ok d)).error = none ∧
    (DashboardPage.loadState (DashboardPage.loadState s t1 .failure) t2 (.ok d)).state
        = some d ∧
    (DashboardPage.loadState (DashboardPage.loadState s t1 .failure) t2 (.ok d)).error
        = none :=
  ⟨rfl, rfl, rfl, rfl, rfl, rfl⟩

/-- C5: the pipeline-progress message handler delivers nothing for a keepalive
frame (`type: "ping"`), delivers nothing for a frame that fails to parse, and
delivers every other frame to `onEvent` exactly once. -/
theorem pipeline_ws_frame_filtering :
    (∀ f : PipelineWS.ParsedFrame, f.typeField = some "ping" →
        PipelineWS.handleFrame (some f) = []) ∧
    PipelineWS.handleFrame none = [] ∧
    (∀ f : PipelineWS.ParsedFrame, f.typeField ≠ some "ping" →
        PipelineWS.handleFrame (some f) = [f.payload]) := by
  refine ⟨?_, rfl, ?_⟩
  · intro f h
    simp [PipelineWS.handleFrame, h]
  · intro f h
    simp [PipelineWS.handleFrame, h]

/-- A concrete auditor-complete progress event used by the C5 witness. -/
def sampleProgressEvent : PipelineWS.ProgressEvent :=
  { agent := "auditor", status := "complete",
    threats := none, at_risk := none, bottlenecks := none, var_usd := none,
    correlations := none, proposals := none,
    approved := some 2, hitl := some 1, rejected := some 0,
    actions := none, reason := none }

/-- Witness for C5 on a ping frame, a malformed frame and an auditor frame. -/
theorem pipeline_ws_frame_filtering_witness :
    PipelineWS.handleFrame (some ⟨some "ping", sampleProgressEvent⟩) = [] ∧
    PipelineWS.handleFrame none = [] ∧
    PipelineWS.handleFrame (some ⟨none, sampleProgressEvent⟩)
        = [sampleProgressEvent] := by
  refine ⟨?_, pipeline_ws_frame_filtering.2.1, ?_⟩
  · exact pipeline_ws_frame_filtering.1 ⟨some "ping", sampleProgressEvent⟩ rfl
  · exact pipeline_ws_frame_filtering.2.2 ⟨none, sampleProgressEvent⟩ (by decide)

/-- Invariant of the operations strip: the number of in-flight pipeline
trigger requests is 1 exactly while `running = "pipeline"` and 0 otherwise. -/
lemma ui_inflight_invariant :
    ∀ s, DashboardPage.ReachableUi s →
      s.pipelineInflight = if s.running = .pipeline then 1 else 0 := by
  intro s hs
  induction hs with
  | init => rfl
  | step e hr ih =>
      cases e <;> simp only [DashboardPage.stepUi] <;> split_ifs with h <;>
        simp_all

/-- C3: at most one pipeline run is active at a time.  On the frontend, every
reachable page state has at most one pipeline trigger request in flight, and a
click on the run button while any operation is running is a no-op (the button
is disabled), so no concurrent run is started.  On the backend (modelled from
the spec), a trigger arriving while a cycle is active joins/reports the
in-flight run without starting a new Watcher run. -/
theorem pipeline_single_flight :
    (∀ s, DashboardPage.ReachableUi s →
        s.pipelineInflight ≤ 1 ∧
        (s.running ≠ .idle → DashboardPage.stepUi s .clickPipeline = s)) ∧
    (∀ o : Orchestrator.RunState, o.runActive = true →
        Orchestrator.triggerRun o = (o, .joinedInFlight)) := by
  constructor
  · intro s hs
    have hinv := ui_inflight_invariant s hs
    constructor
    · rw [hinv]
      split <;> omega
    · intro hne
      simp [DashboardPage.stepUi, if_pos hne]
  · intro o ho
    simp [Orchestrator.triggerRun, ho]

/-- Witness for C3: one click starts a run; a second click during the run is a
no-op, and a busy backend trigger joins the in-flight run. -/
theorem pipeline_single_flight_witness :
    (DashboardPage.stepUi DashboardPage.initPage .clickPipeline).pipelineInflight ≤ 1 ∧
    DashboardPage.stepUi (DashboardPage.stepUi DashboardPage.initPage .clickPipeline)
        .clickPipeline
      = DashboardPage.stepUi DashboardPage.initPage .clickPipeline ∧
    Orchestrator.triggerRun ⟨true, 3⟩ = (⟨true, 3⟩, .joinedInFlight) := by
  have hreach : DashboardPage.ReachableUi
      (DashboardPage.stepUi DashboardPage.initPage .clickPipeline) :=
    DashboardPage.ReachableUi.step _ DashboardPage.ReachableUi.init
  refine ⟨(pipeline_single_flight.1 _ hreach).1, ?_, pipeline_single_flight.2 ⟨true, 3⟩ rfl⟩
  exact (pipeline_single_flight.1 _ hreach).2 (by decide)

/-- Invariant of the chat component: an in-flight request has a fresh
controller, is not yet in the log, and its controller is either still held by
the ref or already aborted; applied requests carry controllers older than the
counter. -/
lemma chat_state_invariant :
    ∀ s, ChatToMap.ReachableChat s →
      (∀ r, s.inflight = some r →
        r.cid < s.nextId ∧ r ∉ s.applied ∧
          (s.abortCtrl = some r.cid ∨ r.cid ∈ s.aborted)) ∧
      (∀ r ∈ s.applied, r.cid < s.nextId) := by
  intro s hs
  induction hs with
  | init =>
      refine ⟨?_, ?_⟩ <;> intro r h <;> simp [ChatToMap.initChat] at h
  | step e hr ih =>
      rename_i t
      obtain ⟨ih1, ih2⟩ := ih
      cases e with
      | send q =>
          by_cases hguard : q = "" ∨ t.loading
          · simp only [ChatToMap.stepChat, if_pos hguard]
            exact ⟨ih1, ih2⟩
          · simp only [ChatToMap.stepChat, if_neg hguard]
            refine ⟨?_, ?_⟩
            · intro r h
              simp only [Option.some.injEq] at h
              subst h
              refine ⟨Nat.lt_succ_self _, ?_, Or.inl rfl⟩
              intro hmem
              exact absurd (ih2 _ hmem) (by simp)
            · intro r hmem
              exact Nat.lt_succ_of_lt (ih2 r hmem)
      | contextChange c =>
          cases hctl : t.abortCtrl with
          | none =>
              simp only [ChatToMap.stepChat, hctl]
              refine ⟨?_, ih2⟩
              intro r h
              obtain ⟨h1, h2, h3⟩ := ih1 r h
              rcases h3 with h3 | h3
              · rw [hctl] at h3; cases h3
              · exact ⟨h1, h2, Or.inr h3⟩
          | some id =>
              simp only [ChatToMap.stepChat, hctl]
              refine ⟨?_, ih2⟩
              intro r h
              obtain ⟨h1, h2, h3⟩ := ih1 r h
              refine ⟨h1, h2, Or.inr ?_⟩
              rcases h3 with h3 | h3
              · rw [hctl] at h3
                simp only [Option.some.injEq] at h3
                subst h3
                exact List.mem_cons_self _ _
              · exact List.mem_cons_of_mem _ h3
      | respond =>
          cases hin : t.inflight with
          | none =>
              have hstep : ChatToMap.stepChat t .respond = t := by
                simp [ChatToMap.stepChat, hin]
              rw [hstep]
              exact ⟨ih1, ih2⟩
          | some r₀ =>
              obtain ⟨h1, h2, _⟩ := ih1 r₀ hin
              by_cases hab : r₀.cid ∈ t.aborted
              · simp only [ChatToMap.stepChat, hin, if_pos hab]
                refine ⟨?_, ih2⟩
                intro r h
                simp at h
              · simp only [ChatToMap.stepChat, hin, if_neg hab]
                refine ⟨?_, ?_⟩
                · intro r h
                  simp at h
                · intro r hmem
                  rcases List.mem_cons.mp hmem with h | h
                  · subst h; exact h1
                  · exact ih2 r h

/-- Once the in-flight request's controller is aborted and its response is not
in the log, no later sequence of events ever applies that response. -/
lemma chat_aborted_never_applied (r : ChatToMap.ChatRequest) :
    ∀ (es : List ChatToMap.ChatEvent) (s : ChatToMap.ChatState),
      r.cid ∈ s.aborted → r ∉ s.applied →
      r ∉ (ChatToMap.runChat s es).applied := by
  intro es
  induction es with
  | nil =>
      intro s _ happ
      simpa [ChatToMap.runChat] using happ
  | cons e es ih =>
      intro s hab happ
      have hstep :
          r.cid ∈ (ChatToMap.stepChat s e).aborted ∧
            r ∉ (ChatToMap.stepChat s e).applied := by
        cases e with
        | send q =>
            by_cases hguard : q = "" ∨ s.loading
            · simpa [ChatToMap.stepChat, if_pos hguard] using ⟨hab, happ⟩
            · simpa [ChatToMap.stepChat, if_neg hguard] using ⟨hab, happ⟩
        | contextChange c =>
            cases hctl : s.abortCtrl with
            | none => simpa [ChatToMap.stepChat, hctl] using ⟨hab, happ⟩
            | some id =>
                simp only [ChatToMap.stepChat, hctl]
                exact ⟨List.mem_cons_of_mem _ hab, happ⟩
        | respond =>
            cases hin : s.inflight with
            | none => simpa [ChatToMap.stepChat, hin] using ⟨hab, happ⟩
            | some r₀ =>
                by_cases hab₀ : r₀.cid ∈ s.aborted
                · simpa [ChatToMap.stepChat, hin, if_pos hab₀] using ⟨hab, happ⟩
                · simp only [ChatToMap.stepChat, hin, if_neg hab₀]
                  refine ⟨hab, ?_⟩
                  intro hmem
                  rcases List.mem_cons.mp hmem with h | h
                  · subst h; exact hab₀ hab
                  · exact happ h
      have : ChatToMap.runChat s (e :: es) = ChatToMap.runChat (ChatToMap.stepChat s e) es := rfl
      rw [this]
      exact ih _ hstep.1 hstep.2

/-- C6: whenever the selected threat context changes while a chat query is in
flight, the in-flight request's AbortController is aborted, and from then on
its stale response is never applied to the UI log, whatever events follow. -/
theorem chat_context_change_discards_stale :
    ∀ s, ChatToMap.ReachableChat s → ∀ r, s.inflight = some r →
      ∀ (c : Option String) (es : List ChatToMap.ChatEvent),
        r.cid ∈ (ChatToMap.stepChat s (.contextChange c)).aborted ∧
        r ∉ (ChatToMap.runChat (ChatToMap.stepChat s (.contextChange c)) es).applied := by
  intro s hs r hin c es
  obtain ⟨h1, _⟩ := chat_state_invariant s hs
  obtain ⟨_, hnapp, hctl⟩ := h1 r hin
  have habort : r.cid ∈ (ChatToMap.stepChat s (.contextChange c)).aborted := by
    rcases hctl with h | h
    · simp only [ChatToMap.stepChat, h]
      exact List.mem_cons_self _ _
    · cases hc : s.abortCtrl with
      | none => simpa [ChatToMap.stepChat, hc] using h
      | some id =>
          simp only [ChatToMap.stepChat, hc]
          exact List.mem_cons_of_mem _ h
  have hnapp' : r ∉ (ChatToMap.stepChat s (.contextChange c)).applied := by
    cases hc : s.abortCtrl with
    | none => simpa [ChatToMap.stepChat, hc] using hnapp
    | some id => simpa [ChatToMap.stepChat, hc] using hnapp
  exact ⟨habort, chat_aborted_never_applied r es _ habort hnapp'⟩

/-- The chat request sent by the C6 witness, its state after `handleSend`, and
the state after the selected threat context then changes to T1. -/
def staleChatRequest : ChatToMap.ChatRequest :=
  { cid := 0, question := "why vendor C?", context := none }

def chatStateAfterSend : ChatToMap.ChatState :=
  ChatToMap.stepChat ChatToMap.initChat (ChatToMap.ChatEvent.send "why vendor C?")

def chatStateAfterSwitch : ChatToMap.ChatState :=
  ChatToMap.stepChat chatStateAfterSend (ChatToMap.ChatEvent.contextChange (some "T1"))

/-- Witness for C6: a query sent with no context is aborted by selecting
threat T1; its response then resolves without being applied to the log. -/
theorem chat_context_change_discards_stale_witness :
    chatStateAfterSend.inflight = some staleChatRequest ∧
    staleChatRequest.cid ∈ chatStateAfterSwitch.aborted ∧
    staleChatRequest ∉
        (ChatToMap.runChat chatStateAfterSwitch [ChatToMap.ChatEvent.respond]).applied := by
  have h := chat_context_change_discards_stale chatStateAfterSend
    (ChatToMap.ReachableChat.step _ ChatToMap.ReachableChat.init)
    staleChatRequest (by decide) (some "T1")
    [ChatToMap.ChatEvent.respond]
  exact ⟨by decide, h.1, h.2⟩

lemma timeStops_nodup (maxHours : ℕ) : (TimeSlider.timeStops maxHours).Nodup :=
  List.Nodup.filter _ (by decide)

lemma timeStops_zero_mem (maxHours : ℕ) : 0 ∈ TimeSlider.timeStops maxHours := by
  simp [TimeSlider.timeStops, TimeSlider.baseStops, List.mem_filter]

lemma timeStops_length_pos (maxHours : ℕ) :
    0 < (TimeSlider.timeStops maxHours).length :=
  List.length_pos.mpr (List.ne_nil_of_mem (timeStops_zero_mem maxHours))

/-- The first time stop is always 0 (0 passes the `≤ maxHours` filter). -/
lemma timeStops_getD_zero (maxHours : ℕ) :
    (TimeSlider.timeStops maxHours).getD 0 0 = 0 := by
  simp [TimeSlider.timeStops, TimeSlider.baseStops, List.filter_cons, Nat.zero_le]

/-- A `getD`-index inside the list yields a member. -/
lemma getD_mem_of_lt (l : List ℕ) (n : ℕ) (h : n < l.length) : l.getD n 0 ∈ l := by
  rw [List.getD_eq_get l 0 h]
  exact l.get_mem n h

/-- On a stop, the autoplay tick advances by the successor index modulo the
stop count (the integer arithmetic collapses to natural arithmetic). -/
lemma autoplayTick_of_mem (maxHours prev : ℕ)
    (hmem : prev ∈ TimeSlider.timeStops maxHours) :
    TimeSlider.autoplayTick maxHours prev
      = (TimeSlider.timeStops maxHours).getD
          (((TimeSlider.timeStops maxHours).indexOf prev + 1)
            % (TimeSlider.timeStops maxHours).length) 0 := by
  unfold TimeSlider.autoplayTick
  simp only [if_pos hmem]
  rw [show (((TimeSlider.timeStops maxHours).indexOf prev : ℤ) + 1)
        = (((TimeSlider.timeStops maxHours).indexOf prev + 1 : ℕ) : ℤ) by push_cast; ring]
  rw [← Int.natCast_mod, Int.toNat_natCast]

/-- Off the stop set (JavaScript `indexOf` = -1) the tick lands on stop 0. -/
lemma autoplayTick_of_not_mem (maxHours prev : ℕ)
    (hmem : prev ∉ TimeSlider.timeStops maxHours) :
    TimeSlider.autoplayTick maxHours prev
      = (TimeSlider.timeStops maxHours).getD 0 0 := by
  unfold TimeSlider.autoplayTick
  simp only [if_neg hmem]
  norm_num

/-- C10: the Time-Machine offset stays inside the stop set
`{0, 12, 24, 48, 72}` restricted to `maxHours` — the set contains the initial
offset 0, slider selection and every autoplay tick land in the set — and
autoplay advances cyclically: from the stop at index `i` to index `i + 1`, and
from the last stop back to 0. -/
theorem time_slider_offset_invariant (maxHours : ℕ) :
    0 ∈ TimeSlider.timeStops maxHours ∧
    (∀ h, h ∈ TimeSlider.timeStops maxHours → h ≤ maxHours) ∧
    (∀ idx, TimeSlider.sliderSelect maxHours idx ∈ TimeSlider.timeStops maxHours) ∧
    (∀ prev, TimeSlider.autoplayTick maxHours prev ∈ TimeSlider.timeStops maxHours) ∧
    (∀ i (hi : i + 1 < (TimeSlider.timeStops maxHours).length),
        TimeSlider.autoplayTick maxHours
            ((TimeSlider.timeStops maxHours).get ⟨i, Nat.lt_of_succ_lt hi⟩)
          = (TimeSlider.timeStops maxHours).get ⟨i + 1, hi⟩) ∧
    (∀ hne : TimeSlider.timeStops maxHours ≠ [],
        TimeSlider.autoplayTick maxHours
            ((TimeSlider.timeStops maxHours).getLast hne) = 0) := by
  have hpos := timeStops_length_pos maxHours
  refine ⟨timeStops_zero_mem maxHours, ?_, ?_, ?_, ?_, ?_⟩
  · intro h hmem
    have := (List.mem_filter.mp hmem).2
    exact of_decide_eq_true this
  · intro idx
    exact (TimeSlider.timeStops maxHours).get_mem idx.1 idx.2
  · intro prev
    by_cases hmem : prev ∈ TimeSlider.timeStops maxHours
    · rw [autoplayTick_of_mem maxHours prev hmem]
      exact getD_mem_of_lt _ _ (Nat.mod_lt _ hpos)
    · rw [autoplayTick_of_not_mem maxHours prev hmem]
      exact getD_mem_of_lt _ _ hpos
  · intro i hi
    have hmem := (TimeSlider.timeStops maxHours).get_mem i (Nat.lt_of_succ_lt hi)
    rw [autoplayTick_of_mem maxHours _ hmem,
        List.get_indexOf (timeStops_nodup maxHours) ⟨i, Nat.lt_of_succ_lt hi⟩,
        Nat.mod_eq_of_lt hi, List.getD_eq_get _ 0 hi]
  · intro hne
    have hlast :
        (TimeSlider.timeStops maxHours).getLast hne
          = (TimeSlider.timeStops maxHours).get
              ⟨(TimeSlider.timeStops maxHours).length - 1, by omega⟩ := by
      rw [List.getLast_eq_getElem]
      simp [List.get_eq_getElem]
    have hmem : (TimeSlider.timeStops maxHours).getLast hne
        ∈ TimeSlider.timeStops maxHours := by
      rw [hlast]
      exact (TimeSlider.timeStops maxHours).get_mem _ _
    rw [autoplayTick_of_mem maxHours _ hmem, hlast,
        List.get_indexOf (timeStops_nodup maxHours)]
    have hlen : (TimeSlider.timeStops maxHours).length - 1 + 1
        = (TimeSlider.timeStops maxHours).length := by omega
    rw [hlen, Nat.mod_self]
    exact timeStops_getD_zero maxHours

/-- Witness for C10 at `maxHours = 72`: the tick advances 12 → 24, wraps
72 → 0, recovers an off-stop offset into the set, and stop 48 obeys the
bound. -/
theorem time_slider_offset_invariant_witness :
    TimeSlider.autoplayTick 72 12 = 24 ∧
    TimeSlider.autoplayTick 72 72 = 0 ∧
    TimeSlider.autoplayTick 72 7 ∈ TimeSlider.timeStops 72 ∧
    48 ≤ 72 := by
  have h := time_slider_offset_invariant 72
  refine ⟨?_, ?_, h.2.2.2.1 7, h.2.1 48 (by decide)⟩
  · exact h.2.2.2.2.1 1 (by decide)
  · exact h.2.2.2.2.2 (by decide)

/-- The winner of the fold dominates the accumulator and every scanned
location in `valueAtRisk`. -/
lemma foldl_consider_spec (locs : List Scoring.Location) :
    ∀ (acc : Option Scoring.Location) (w : Scoring.Location),
      locs.foldl Scoring.considerLocation acc = some w →
      (∀ b, acc = some b → Scoring.valueAtRisk b ≤ Scoring.valueAtRisk w) ∧
      (∀ l ∈ locs, Scoring.valueAtRisk l ≤ Scoring.valueAtRisk w) := by
  induction locs with
  | nil =>
      intro acc w h
      simp only [List.foldl_nil] at h
      refine ⟨?_, by simp⟩
      intro b hb
      rw [hb] at h
      cases h
      exact le_refl _
  | cons l ls ih =>
      intro acc w h
      rw [List.foldl_cons] at h
      obtain ⟨hacc, hmem⟩ := ih (Scoring.considerLocation acc l) w h
      constructor
      · intro b hb
        by_cases hlt : Scoring.valueAtRisk l > Scoring.valueAtRisk b
        · have hw := hacc l (by rw [hb]; simp [Scoring.considerLocation, hlt])
          exact le_trans (le_of_lt hlt) hw
        · exact hacc b (by rw [hb]; simp [Scoring.considerLocation, hlt])
      · intro l' hl'
        rcases List.mem_cons.mp hl' with rfl | hl'
        · cases hb : acc with
          | none => exact hacc l' (by rw [hb]; simp [Scoring.considerLocation])
          | some b =>
              by_cases hlt : Scoring.valueAtRisk l' > Scoring.valueAtRisk b
              · exact hacc l' (by rw [hb]; simp [Scoring.considerLocation, hlt])
              · have hw := hacc b (by rw [hb]; simp [Scoring.considerLocation, hlt])
                exact le_trans (not_lt.mp hlt) hw
        · exact hmem l' hl'

/-- C2: `valueAtRisk` coalesces a null `inventory_value` to 0 (never a type
error — it is total), and under the uniform null-coalescing ranking a
null-inventory location never wins a highest-value selection over any location
carrying a positive inventory value. -/
theorem value_at_risk_null_coalescing :
    (∀ loc : Scoring.Location, loc.inventory_value = none →
        Scoring.valueAtRisk loc = 0) ∧
    (∀ (locs : List Scoring.Location) (locNull locPos : Scoring.Location) (v : ℚ),
        locNull ∈ locs → locPos ∈ locs →
        locNull.inventory_value = none →
        locPos.inventory_value = some v → 0 < v →
        Scoring.selectHighestValue locs ≠ some locNull) := by
  constructor
  · intro loc h
    simp [Scoring.valueAtRisk, h]
  · intro locs locNull locPos v _ hmemP hnull hpos hv hsel
    rw [Scoring.selectHighestValue] at hsel
    have hle := (foldl_consider_spec locs none locNull hsel).2 locPos hmemP
    rw [show Scoring.valueAtRisk locPos = v by simp [Scoring.valueAtRisk, hpos],
        show Scoring.valueAtRisk locNull = 0 by simp [Scoring.valueAtRisk, hnull]] at hle
    linarith

/-- A null-inventory location and a positive-value location for the C2
witness. -/
def nullInventoryLocation : Scoring.Location :=
  { id := "LOC-N", name := "Null Depot", type := "warehouse",
    inventory_value := none, reliability_index := 9 / 10, active := true }

def positiveInventoryLocation : Scoring.Location :=
  { id := "LOC-P", name := "Stocked Depot", type := "warehouse",
    inventory_value := some 500000, reliability_index := 8 / 10, active := true }

/-- Witness for C2 on a two-location fleet. -/
theorem value_at_risk_null_coalescing_witness :
    Scoring.valueAtRisk nullInventoryLocation = 0 ∧
    Scoring.selectHighestValue [nullInventoryLocation, positiveInventoryLocation]
      ≠ some nullInventoryLocation := by
  constructor
  · exact value_at_risk_null_coalescing.1 nullInventoryLocation rfl
  · exact value_at_risk_null_coalescing.2
      [nullInventoryLocation, positiveInventoryLocation]
      nullInventoryLocation positiveInventoryLocation 500000
      (List.mem_cons_self _ _) (List.mem_cons_of_mem _ (List.mem_cons_self _ _))
      rfl rfl (by norm_num)

/-- C7: a submitted location registration always carries a latitude in
[-90, 90] and a longitude in [-180, 180]; a form holding an out-of-range
coordinate fails constraint validation, so no create/update request is
sent. -/
theorem register_node_coordinates_validated (f : AddNodePanel.NodeForm) :
    (∀ p, AddNodePanel.submitRegistration f = some p →
        -90 ≤ p.lat ∧ p.lat ≤ 90 ∧ -180 ≤ p.lon ∧ p.lon ≤ 180) ∧
    (∀ v, f.lat = some v → (v < -90 ∨ 90 < v) →
        AddNodePanel.submitRegistration f = none) ∧
    (∀ v, f.lon = some v → (v < -180 ∨ 180 < v) →
        AddNodePanel.submitRegistration f = none) := by
  refine ⟨?_, ?_, ?_⟩
  · intro p hp
    rw [AddNodePanel.submitRegistration] at hp
    split_ifs at hp with hvalid
    · cases hp
      rcases hlat : f.lat with _ | v
      · rw [AddNodePanel.formValid, hlat] at hvalid
        simp at hvalid
      · rcases hlon : f.lon with _ | w
        · rw [AddNodePanel.formValid, hlat, hlon] at hvalid
          simp at hvalid
        · rw [AddNodePanel.formValid, hlat, hlon] at hvalid
          simp only [Bool.and_eq_true, decide_eq_true_eq] at hvalid
          obtain ⟨⟨⟨⟨_, hvb⟩, hwb⟩, _⟩, _⟩ := hvalid
          simp only [hlat, hlon, Option.getD_some]
          exact ⟨hvb.1, hvb.2, hwb.1, hwb.2⟩
  · intro v hlat hout
    have hbad : ¬(-90 ≤ v ∧ v ≤ 90) := by
      rcases hout with h | h
      · intro hc; linarith [hc.1]
      · intro hc; linarith [hc.2]
    have hfalse : AddNodePanel.formValid f = false := by
      rw [AddNodePanel.formValid, hlat]
      simp [hbad]
    simp [AddNodePanel.submitRegistration, hfalse]
  · intro v hlon hout
    have hbad : ¬(-180 ≤ v ∧ v ≤ 180) := by
      rcases hout with h | h
      · intro hc; linarith [hc.1]
      · intro hc; linarith [hc.2]
    have hfalse : AddNodePanel.formValid f = false := by
      rw [AddNodePanel.formValid, hlon]
      simp [hbad]
    simp [AddNodePanel.submitRegistration, hfalse]

/-- A complete, in-range registration form and its submitted payload, plus a
form with an out-of-range latitude, for the C7 witness. -/
def sampleNodeForm : AddNodePanel.NodeForm :=
  { name := "APEX GRAIN CO.", type := "supplier",
    lat := some 38, lon := some (-77),
    inv := none, leadTime := some 24 }

def sampleNodePayload : AddNodePanel.UpsertPayload :=
  { name := "APEX GRAIN CO.", type := "supplier",
    lat := 38, lon := -77,
    inventory_value_usd := none, avg_lead_time_hours := some 24 }

def badLatNodeForm : AddNodePanel.NodeForm :=
  { name := "NOWHERE", type := "port",
    lat := some 91, lon := some 0, inv := none, leadTime := none }

/-- Witness for C7: the in-range form submits a payload with in-range
coordinates; the lat = 91 form sends nothing. -/
theorem register_node_coordinates_validated_witness :
    (-90 ≤ sampleNodePayload.lat ∧ sampleNodePayload.lat ≤ 90 ∧
      -180 ≤ sampleNodePayload.lon ∧ sampleNodePayload.lon ≤ 180) ∧
    AddNodePanel.submitRegistration badLatNodeForm = none := by
  constructor
  · exact (register_node_coordinates_validated sampleNodeForm).1
      sampleNodePayload (by decide)
  · exact (register_node_coordinates_validated badLatNodeForm).2.1 91 rfl
      (Or.inr (by norm_num))

/-- C9: a rendered proposal whose resolved origin and destination share the
exact coordinates and which stores no `route_geometry` yields a two-point
LineString feature without invoking `turf.greatCircle` — the "origin and
destination cannot be the same" exception is never raised, and the route
feature is still emitted. -/
theorem update_routes_same_coordinates (routes : List Proposal)
    (locations : List ERPLocation) (route : Proposal) (origin dest : ERPLocation)
    (hr : route ∈ routes)
    (ho : locations.find? (fun l => l.location_id = route.original_supplier_id)
        = some origin)
    (hd : locations.find? (fun l => l.location_id = route.proposed_supplier_id)
        = some dest)
    (hlon : origin.coordinates.lon = dest.coordinates.lon)
    (hlat : origin.coordinates.lat = dest.coordinates.lat)
    (hg : route.route_geometry = none) :
    ∃ f ∈ AegisGlobe.updateRoutes routes locations,
      f.proposal_id = route.proposal_id ∧
      f.geometry = .lineString [origin.coordinates, dest.coordinates] ∧
      f.usedGreatCircle = false := by
  have hfeat : AegisGlobe.routeFeature locations route
      = some { proposal_id := route.proposal_id,
               status := match route.hitl_status with
                         | some st => if st = "" then "pending" else st
                         | none => "pending",
               cost := route.reroute_cost_usd,
               attention_score := route.attention_score,
               geometry := .lineString [origin.coordinates, dest.coordinates],
               usedGreatCircle := false } := by
    rw [AegisGlobe.routeFeature, ho, hd, hg]
    simp only [if_pos (And.intro hlon hlat)]
  refine ⟨_, List.mem_filterMap.mpr ⟨route, hr, hfeat⟩, rfl, rfl, rfl⟩

/-- A reroute whose endpoints coincide, for the C9 witness. -/
def coincidentOrigin : ERPLocation :=
  { location_id := "L1", name := "Origin Farm", type := "supplier",
    coordinates := { lat := 10, lon := 20 },
    inventory_value_usd := 1000, reliability_index := 1,
    avg_lead_time_hours := 24, active := true }

def coincidentDest : ERPLocation :=
  { location_id := "L2", name := "Dest Farm", type := "supplier",
    coordinates := { lat := 10, lon := 20 },
    inventory_value_usd := 500, reliability_index := 1,
    avg_lead_time_hours := 12, active := true }

def coincidentRoute : Proposal :=
  { proposal_id := "P1", threat_id := "T1",
    original_supplier_id := "L1", proposed_supplier_id := "L2",
    proposed_supplier_name := "Dest Farm",
    attention_score := 1, mapbox_drive_time_minutes := 30,
    mapbox_distance_km := 100, reroute_cost_usd := 5000,
    hitl_status := some "auto_approved", route_geometry := none }

/-- Witness for C9 on the coincident-endpoint reroute. -/
theorem update_routes_same_coordinates_witness :
    ∃ f ∈ AegisGlobe.updateRoutes [coincidentRoute] [coincidentOrigin, coincidentDest],
      f.proposal_id = coincidentRoute.proposal_id ∧
      f.geometry = .lineString [coincidentOrigin.coordinates, coincidentDest.coordinates] ∧
      f.usedGreatCircle = false :=
  update_routes_same_coordinates [coincidentRoute] [coincidentOrigin, coincidentDest]
    coincidentRoute coincidentOrigin coincidentDest
    (List.mem_cons_self _ _) (by decide) (by decide) rfl rfl rfl

/-- A freshly created proposal awaiting its Auditor evaluation, used by the
C1 counterexample and witness. -/
def pendingProposal : Hitl.RerouteProposal :=
  { proposal_id := "PX", hitl_status := .pending, confidence := none,
    audit_explanation := "" }

/-- An escalated proposal awaiting human review, used by the C1 witness. -/
def awaitingProposal : Hitl.RerouteProposal :=
  { proposal_id := "PY", hitl_status := .awaiting_approval,
    confidence := some (1 / 2), audit_explanation := "escalated" }

/-- C1 counterexample: with the spec's thresholds (approve ≥ 0.85,
reject < 0.4) a confidence of 0.2 moves a `pending` proposal directly to
`rejected` — an Auditor-evaluation transition into `rejected` that the claim's
graph (`rejected` reachable only from `awaiting_approval` via HITL) does not
allow. -/
theorem hitl_pending_rejected_counterexample :
    pendingProposal.hitl_status = .pending ∧
    (Hitl.auditorEvaluate (85 / 100) (40 / 100) (20 / 100) "low confidence"
        pendingProposal).hitl_status = .rejected ∧
    (Hitl.auditorEvaluate (85 / 100) (40 / 100) (20 / 100) "low confidence"
        pendingProposal).hitl_status ≠ .auto_approved ∧
    (Hitl.auditorEvaluate (85 / 100) (40 / 100) (20 / 100) "low confidence"
        pendingProposal).hitl_status ≠ .awaiting_approval := by
  have h1 : ¬((85 : ℚ) / 100 ≤ 20 / 100) := by norm_num
  have h2 : (20 : ℚ) / 100 < 40 / 100 := by norm_num
  refine ⟨rfl, ?_, ?_, ?_⟩ <;>
    simp [Hitl.auditorEvaluate, pendingProposal, h1, h2]

/-- C1 (amended): every `hitl_status` transition follows the directed graph in
which Auditor evaluation moves `pending` to `auto_approved`,
`awaiting_approval` or `rejected`; HITL resolution is the only operation
moving `awaiting_approval`, to `approved` or `rejected`; every other
evaluation is a no-op and every other resolution is a client error, so no
operation moves a proposal out of a terminal state.  A proposal's single
`hitl_status` field carries exactly one status at any time. -/
theorem hitl_status_transition_graph :
    (∀ (ath rth conf : ℚ) (expl : String) (p : Hitl.RerouteProposal),
        p.hitl_status = .pending →
        (Hitl.auditorEvaluate ath rth conf expl p).hitl_status = .auto_approved ∨
        (Hitl.auditorEvaluate ath rth conf expl p).hitl_status = .awaiting_approval ∨
        (Hitl.auditorEvaluate ath rth conf expl p).hitl_status = .rejected) ∧
    (∀ (ath rth conf : ℚ) (expl : String) (p : Hitl.RerouteProposal),
        p.hitl_status ≠ .pending →
        Hitl.auditorEvaluate ath rth conf expl p = p) ∧
    (∀ (d : Hitl.Decision) (rationale : String) (p : Hitl.RerouteProposal),
        p.hitl_status ≠ .awaiting_approval →
        Hitl.hitlResolve d rationale p = .error "proposal is not awaiting approval") ∧
    (∀ (d : Hitl.Decision) (rationale : String) (p p' : Hitl.RerouteProposal),
        Hitl.hitlResolve d rationale p = .ok p' →
        p.hitl_status = .awaiting_approval ∧
        ((p'.hitl_status = .approved ∧ d = .approve) ∨
          (p'.hitl_status = .rejected ∧ d = .reject))) := by
  refine ⟨?_, ?_, ?_, ?_⟩
  · intro ath rth conf expl p hp
    rw [Hitl.auditorEvaluate, if_neg (by rw [hp]; simp)]
    split_ifs <;> simp
  · intro ath rth conf expl p hp
    rw [Hitl.auditorEvaluate, if_pos hp]
  · intro d rationale p hp
    rw [Hitl.hitlResolve.eq_def, if_pos hp]
  · intro d rationale p p' hres
    by_cases hp : p.hitl_status = .awaiting_approval
    · refine ⟨hp, ?_⟩
      rw [Hitl.hitlResolve.eq_def, if_neg (not_not_intro hp)] at hres
      cases d with
      | approve =>
          have hres' :
              Except.ok { p with hitl_status := Hitl.HitlStatus.approved }
                = Except.ok p' := hres
          injection hres' with h
          exact Or.inl ⟨by rw [← h], rfl⟩
      | reject =>
          have hres' :
              Except.ok { p with hitl_status := Hitl.HitlStatus.rejected,
                                 audit_explanation := rationale }
                = Except.ok p' := hres
          injection hres' with h
          exact Or.inr ⟨by rw [← h], rfl⟩
    · rw [Hitl.hitlResolve.eq_def, if_pos hp] at hres
      cases hres

/-- Witness for C1 (amended) on concrete pending and awaiting proposals with
the spec's thresholds. -/
theorem hitl_status_transition_graph_witness :
    ((Hitl.auditorEvaluate (85 / 100) (40 / 100) (91 / 100) "high confidence"
        pendingProposal).hitl_status = .auto_approved ∨
      (Hitl.auditorEvaluate (85 / 100) (40 / 100) (91 / 100) "high confidence"
        pendingProposal).hitl_status = .awaiting_approval ∨
      (Hitl.auditorEvaluate (85 / 100) (40 / 100) (91 / 100) "high confidence"
        pendingProposal).hitl_status = .rejected) ∧
    Hitl.auditorEvaluate (85 / 100) (40 / 100) (91 / 100) "noop" awaitingProposal
      = awaitingProposal ∧
    Hitl.hitlResolve .approve "already resolved" pendingProposal
      = .error "proposal is not awaiting approval" ∧
    (awaitingProposal.hitl_status = .awaiting_approval ∧
      (((Hitl.RerouteProposal.mk "PY" .approved (some (1 / 2)) "escalated").hitl_status
            = .approved ∧ Hitl.Decision.approve = .approve) ∨
        ((Hitl.RerouteProposal.mk "PY" .approved (some (1 / 2)) "escalated").hitl_status
            = .rejected ∧ Hitl.Decision.approve = .reject))) := by
  refine ⟨?_, ?_, ?_, ?_⟩
  · exact hitl_status_transition_graph.1 (85 / 100) (40 / 100) (91 / 100)
      "high confidence" pendingProposal rfl
  · exact hitl_status_transition_graph.2.1 (85 / 100) (40 / 100) (91 / 100)
      "noop" awaitingProposal (by decide)
  · exact hitl_status_transition_graph.2.2.1 .approve "already resolved"
      pendingProposal (by decide)
  · exact hitl_status_transition_graph.2.2.2 .approve "already resolved"
      awaitingProposal _ rfl

end AegisChain
